import Mathlib

/-!
# CollimationStudies: geometry tree of the collimator assembly and production cuts

A shallow embedding of `src/CollimatorConstruction.cc` and of the cut interface of
`include/CollPhysicsList.hh`.

Modelling conventions.

* A `G4double` is a rational number (every finite binary64 value is one).  The additions,
  subtractions and multiplications of the source round their exact result to binary64, to
  nearest with ties to even and with gradual underflow: `dadd`, `dsub`, `dmul` apply the
  rounding `fl` to the exact result.  Negation is exact.  Overflow to an infinity is not
  represented: `noOverflow x` marks the exact results `x` for which `fl x` is the binary64
  result.
* Positions of faces (`zMin`, `zMax`), composed translations and the overlap test are exact
  geometry over the stored values; they are not computed by the source.
* The geometry library's classes (`G4Tubs`, `G4Cons`, `G4Box`, `G4LogicalVolume`,
  `G4PVPlacement`) are records holding exactly the constructor arguments the source passes.
  A `G4PVPlacement` with a mother volume is recorded in the mother's daughter list, in the
  order in which the source creates the placements.  Whatever checks the library's shape
  constructors perform on their arguments are outside the repository and are not modelled.
* The source builds a tree of fixed depth three (world, module, part), so logical volumes
  are parametrised by the type of what their daughters hold.
-/

namespace CollimationStudies

/-! ## Units -/

/-- Modelled from the spec: the unit constants of `G4SystemOfUnits.hh`, a header that is not
among the sources.  The spec counts the default cut `0.2*mm` as `0.2` length-units, so the
millimetre is the unit of length. -/
def mm : ℚ := 1

/-- Modelled from the spec: the centimetre of `G4SystemOfUnits.hh` (not among the sources),
ten millimetres. -/
def cm : ℚ := 10 * mm

/-! ## `G4double` arithmetic -/

/-- Round a rational to the nearest integer, a tie going to the even neighbour. -/
def roundHalfEven (q : ℚ) : ℤ :=
  if q - ⌊q⌋ < 1 / 2 then ⌊q⌋
  else if 1 / 2 < q - ⌊q⌋ then ⌊q⌋ + 1
  else if ⌊q⌋ % 2 = 0 then ⌊q⌋
  else ⌊q⌋ + 1

/-- Exponent of the binade of `x` in binary64: `⌊log₂ |x|⌋`, held at `-1022` for subnormals. -/
def binade (x : ℚ) : ℤ := max (Int.log 2 |x|) (-1022)

/-- Spacing of the binary64 values around `x` (53 significant bits). -/
def ulp (x : ℚ) : ℚ := (2 : ℚ) ^ (binade x - 52)

/-- Rounding of an exact result to binary64, to nearest, ties to even. -/
def fl (x : ℚ) : ℚ := roundHalfEven (x / ulp x) * ulp x

/-- The `G4double` sum `a + b`. -/
def dadd (a b : ℚ) : ℚ := fl (a + b)

/-- The `G4double` difference `a - b`. -/
def dsub (a b : ℚ) : ℚ := fl (a - b)

/-- The `G4double` product `a * b`. -/
def dmul (a b : ℚ) : ℚ := fl (a * b)

/-- The unit roundoff of binary64, `2^-53`. -/
def unitRoundoff : ℚ := 1 / 2 ^ 53

/-- Half of the smallest positive binary64 value, `2^-1075`. -/
def halfMinSubnormal : ℚ := (2 : ℚ) ^ (-1075 : ℤ)

/-- The exact result `x` rounds to a finite binary64 value: it is below the midpoint between
the largest finite value and `2^1024`. -/
def noOverflow (x : ℚ) : Prop := |x| < 2 ^ 1024 - 2 ^ 970

instance (x : ℚ) : Decidable (noOverflow x) := by
  unfold noOverflow
  infer_instance

/-! ## Geometry records -/

/-- The four NIST materials looked up by `DefineMaterials`. -/
inductive Material where
  | G4_AIR
  | G4_Fe
  | G4_W
  | G4_Ni
  deriving DecidableEq, Repr

/-- A translation vector. -/
structure G4ThreeVector where
  x : ℚ
  y : ℚ
  z : ℚ
  deriving DecidableEq, Repr

/-- Composition of two pure translations (no placement of the source is rotated), as an
exact sum. -/
def G4ThreeVector.add (a b : G4ThreeVector) : G4ThreeVector :=
  ⟨a.x + b.x, a.y + b.y, a.z + b.z⟩

/-- Solids with the arguments of their constructors; angles are kept in degrees. -/
inductive Solid where
  | G4Box (name : String) (pX pY pZ : ℚ)
  | G4Tubs (name : String) (pRMin pRMax pDz pSPhiDeg pDPhiDeg : ℚ)
  | G4Cons (name : String) (pRmin1 pRmax1 pRmin2 pRmax2 pDz pSPhiDeg pDPhiDeg : ℚ)
  deriving DecidableEq, Repr

/-- Half-length of a solid along the z axis. -/
def Solid.halfz : Solid → ℚ
  | .G4Box _ _ _ pZ => pZ
  | .G4Tubs _ _ _ pDz _ _ => pDz
  | .G4Cons _ _ _ _ _ pDz _ _ => pDz

/-- Smallest inner radius of a solid of revolution (a box has none and reports `0`). -/
def Solid.rLo : Solid → ℚ
  | .G4Box _ _ _ _ => 0
  | .G4Tubs _ pRMin _ _ _ _ => pRMin
  | .G4Cons _ pRmin1 _ pRmin2 _ _ _ _ => min pRmin1 pRmin2

/-- Largest outer radius of a solid of revolution (for a box, its x half-extent). -/
def Solid.rHi : Solid → ℚ
  | .G4Box _ pX _ _ => pX
  | .G4Tubs _ _ pRMax _ _ _ => pRMax
  | .G4Cons _ _ pRmax1 _ pRmax2 _ _ _ => max pRmax1 pRmax2

/-- A placement of a logical volume of type `α`: the arguments of the `G4PVPlacement`
constructor apart from the mother, which is the volume whose daughter list holds it. -/
structure G4PVPlacement (α : Type) where
  pRot : Option Unit
  tlate : G4ThreeVector
  pCurrentLogical : α
  pName : String
  pMany : Bool
  pCopyNo : Nat
  pSurfChk : Bool
  deriving DecidableEq, Repr

/-- A logical volume: solid, material, name, and the placements made inside it. -/
structure G4LogicalVolume (α : Type) where
  solid : Solid
  material : Option Material
  name : String
  daughters : List (G4PVPlacement α)
  deriving DecidableEq, Repr

/-- A part: a logical volume in which nothing is placed. -/
abbrev PartLV := G4LogicalVolume Empty

/-- A module: a logical volume holding parts. -/
abbrev ModuleLV := G4LogicalVolume PartLV

/-- The world's logical volume, holding modules. -/
abbrev WorldLV := G4LogicalVolume ModuleLV

/-- Lower z face of a placed volume in its mother's frame: the stored centre minus the stored
half-length, exactly. -/
def G4PVPlacement.zMin {α : Type} (p : G4PVPlacement (G4LogicalVolume α)) : ℚ :=
  p.tlate.z - p.pCurrentLogical.solid.halfz

/-- Upper z face of a placed volume in its mother's frame: the stored centre plus the stored
half-length, exactly. -/
def G4PVPlacement.zMax {α : Type} (p : G4PVPlacement (G4LogicalVolume α)) : ℚ :=
  p.tlate.z + p.pCurrentLogical.solid.halfz

/-- First daughter placement with the given name. -/
def G4LogicalVolume.daughter? {α : Type} (lv : G4LogicalVolume α) (n : String) :
    Option (G4PVPlacement α) :=
  lv.daughters.find? (fun p => p.pName == n)

/-! ## `CollimatorConstruction` -/

/-- Data members of `CollimatorConstruction` read by the construction code. -/
structure CollimatorConstruction where
  _Nickel : Option Material
  _Tungsten : Option Material
  _Iron : Option Material
  _Air : Option Material
  _src_radius : ℚ
  _src_halfz : ℚ
  _src_shiftz : ℚ
  _enc_radius : ℚ
  _enc_halfz : ℚ
  _opn_radius : ℚ
  _opn_halfz : ℚ
  _pcl_radius : ℚ
  _pcl_halfz : ℚ
  _air_gap : ℚ
  _coll_radius : ℚ
  _coll_halfz : ℚ
  _scl_radius : ℚ
  _scl_holeA : ℚ
  _scl_holeB : ℚ
  _scl_halfz : ℚ
  _checkOverlaps : Bool
  deriving DecidableEq, Repr

set_option linter.dupNamespace false in
/-- The constructor: null materials, every dimension `-1.0`, overlap checking on. -/
def CollimatorConstruction.CollimatorConstruction : CollimatorConstruction where
  _Nickel := none
  _Tungsten := none
  _Iron := none
  _Air := none
  _src_radius := -1
  _src_halfz := -1
  _src_shiftz := -1
  _enc_radius := -1
  _enc_halfz := -1
  _opn_radius := -1
  _opn_halfz := -1
  _pcl_radius := -1
  _pcl_halfz := -1
  _air_gap := -1
  _coll_radius := -1
  _coll_halfz := -1
  _scl_radius := -1
  _scl_holeA := -1
  _scl_holeB := -1
  _scl_halfz := -1
  _checkOverlaps := true

/-- `DefineMaterials`: the four materials are resolved through the NIST manager. -/
def DefineMaterials (s : CollimatorConstruction) : CollimatorConstruction :=
  { s with
    _Air := some Material.G4_AIR
    _Iron := some Material.G4_Fe
    _Tungsten := some Material.G4_W
    _Nickel := some Material.G4_Ni }

/-- `BuildPrimaryCollimator`: the iron enclosure with source, opening and PCL inside. -/
def BuildPrimaryCollimator (s : CollimatorConstruction) : ModuleLV :=
  let encTube := Solid.G4Tubs "enclosure" 0 s._enc_radius s._enc_halfz 0 360
  let sourceTube := Solid.G4Tubs "source" 0 s._src_radius s._src_halfz 0 360
  let sourceLV : PartLV := ⟨sourceTube, s._Nickel, "source", []⟩
  let opnTube := Solid.G4Tubs "opening" 0 s._opn_radius s._opn_halfz 0 360
  let opnLV : PartLV := ⟨opnTube, s._Air, "opening", []⟩
  let pclTube := Solid.G4Tubs "PCL" s._opn_radius s._pcl_radius s._pcl_halfz 0 360
  let pclLV : PartLV := ⟨pclTube, s._Tungsten, "PCL", []⟩
  { solid := encTube
    material := s._Iron
    name := "enclosure"
    daughters :=
      [ ⟨none, ⟨0, 0, s._src_shiftz⟩, sourceLV, "source", false, 0, s._checkOverlaps⟩,
        ⟨none, ⟨0, 0, dsub s._enc_halfz s._opn_halfz⟩, opnLV, "opening", false, 0,
          s._checkOverlaps⟩,
        ⟨none,
          ⟨0, 0, dsub (dsub s._enc_halfz s._pcl_halfz)
            (dmul (1 / 2) (dsub s._opn_halfz s._pcl_halfz))⟩,
          pclLV, "PCL", false, 0, s._checkOverlaps⟩ ] }

/-- `BuildSecondaryCollimator`: the air cylinder with the iron tube and the tungsten cone. -/
def BuildSecondaryCollimator (s : CollimatorConstruction) : ModuleLV :=
  let airTube := Solid.G4Tubs "aircyl" 0 s._coll_radius s._coll_halfz 0 360
  let ironTube := Solid.G4Tubs "irontube" s._scl_radius s._coll_radius s._coll_halfz 0 360
  let ironLV : PartLV := ⟨ironTube, s._Iron, "irontube", []⟩
  let sclCone :=
    Solid.G4Cons "scl" s._scl_holeA s._scl_radius s._scl_holeB s._scl_radius s._scl_halfz 0 360
  let sclLV : PartLV := ⟨sclCone, s._Tungsten, "scl", []⟩
  { solid := airTube
    material := s._Air
    name := "aircyl"
    daughters :=
      [ ⟨none, ⟨0, 0, 0⟩, ironLV, "irontube", false, 0, s._checkOverlaps⟩,
        ⟨none, ⟨0, 0, -(dsub s._coll_halfz s._scl_halfz)⟩, sclLV, "scl", false, 0,
          s._checkOverlaps⟩ ] }

/-- `DefineVolumes`: the world box with the two modules placed along z; the result is the
world's physical volume. -/
def DefineVolumes (s : CollimatorConstruction) : G4PVPlacement WorldLV :=
  let wl : ℚ := dmul 60 cm
  let worldS := Solid.G4Box "world" (dmul (1 / 2) wl) (dmul (1 / 2) wl) (dmul (1 / 2) wl)
  let priColl := BuildPrimaryCollimator s
  let secColl := BuildSecondaryCollimator s
  let worldLV : WorldLV :=
    { solid := worldS
      material := s._Air
      name := "World"
      daughters :=
        [ ⟨none, ⟨0, 0, -s._src_shiftz⟩, priColl, "PCL", false, 0, s._checkOverlaps⟩,
          ⟨none, ⟨0, 0, dadd (dadd (dsub s._enc_halfz s._src_shiftz) s._air_gap) s._coll_halfz⟩,
            secColl, "SCL", false, 0, s._checkOverlaps⟩ ] }
  ⟨none, ⟨0, 0, 0⟩, worldLV, "World", false, 0, s._checkOverlaps⟩

/-- `Construct`: materials first, then the volumes; returns the updated object and the
world's physical volume. -/
def Construct (s : CollimatorConstruction) : CollimatorConstruction × G4PVPlacement WorldLV :=
  let s1 := DefineMaterials s
  (s1, DefineVolumes s1)

/-! ## Derived geometric quantities -/

/-- The z offsets of the module placements of a world, in placement order. -/
def moduleOffsets (w : G4PVPlacement WorldLV) : List ℚ :=
  w.pCurrentLogical.daughters.map (fun m => m.tlate.z)

/-- Names of the module placements of a world, in placement order. -/
def moduleNames (w : G4PVPlacement WorldLV) : List String :=
  w.pCurrentLogical.daughters.map (fun m => m.pName)

/-- Two coaxial placed solids share a region of positive volume: their radial intervals and
their z intervals both meet in an interval of positive length. -/
def overlap {α : Type} (a b : G4PVPlacement (G4LogicalVolume α)) : Prop :=
  max a.pCurrentLogical.solid.rLo b.pCurrentLogical.solid.rLo
      < min a.pCurrentLogical.solid.rHi b.pCurrentLogical.solid.rHi
    ∧ max a.zMin b.zMin < min a.zMax b.zMax

instance {α : Type} (a b : G4PVPlacement (G4LogicalVolume α)) : Decidable (overlap a b) := by
  unfold overlap
  infer_instance

/-- No two placements inside a logical volume overlap. -/
def noSiblingOverlap {α : Type} (lv : G4LogicalVolume (G4LogicalVolume α)) : Prop :=
  lv.daughters.Pairwise (fun a b => ¬ overlap a b)

/-! ## The end-to-end configuration of the spec -/

/-- The configuration of the end-to-end scenario, set on a freshly constructed object.  Every
value is a whole number of millimetres, hence a binary64 value. -/
def scenario : CollimatorConstruction :=
  { CollimatorConstruction.CollimatorConstruction with
    _enc_radius := 5 * cm
    _enc_halfz := 5 * cm
    _src_radius := 0.1 * cm
    _src_halfz := 0.1 * cm
    _src_shiftz := 4.5 * cm
    _opn_radius := 0.3 * cm
    _opn_halfz := 4.5 * cm
    _pcl_radius := 4.5 * cm
    _pcl_halfz := 0.5 * cm
    _coll_radius := 5 * cm
    _coll_halfz := 10 * cm
    _scl_radius := 4 * cm
    _scl_holeA := 0.2 * cm
    _scl_holeB := 0.5 * cm
    _scl_halfz := 3 * cm
    _air_gap := 1 * cm }

/-- The scenario with the air gap never set: it keeps the constructor's `-1.0`. -/
def scenarioGapUnset : CollimatorConstruction :=
  { scenario with _air_gap := CollimatorConstruction.CollimatorConstruction._air_gap }

/-- The scenario with the first bore radius of the cone set to `5cm`, above the cone's outer
radius of `4cm`. -/
def scenarioWideBore : CollimatorConstruction :=
  { scenario with _scl_holeA := 5 * cm }

/-- The scenario with `encHalfz` set to the `G4double` that the literal `50.1` denotes and
with a zero air gap. -/
def scenarioZeroGap : CollimatorConstruction :=
  { scenario with
    _enc_halfz := 7050948166601933 / 2 ^ 47
    _air_gap := 0 }

/-- The scenario with `encHalfz` and `opnHalfz` set to the `G4double`s that the literals
`0.9` and `0.2` denote. -/
def scenarioShortEnclosure : CollimatorConstruction :=
  { scenario with
    _enc_halfz := 8106479329266893 / 2 ^ 53
    _opn_halfz := 3602879701896397 / 2 ^ 54 }

/-! ## `CollPhysicsList`: the cached production cuts -/

/-- The three cut data members of `CollPhysicsList`. -/
structure CollPhysicsList where
  _cutForGamma : ℚ
  _cutForElectron : ℚ
  _cutForPositron : ℚ
  deriving DecidableEq, Repr

/-- The default argument of the constructor declared in the header, `0.2*mm`. -/
def defaultCuts : ℚ := 0.2 * mm

/-- Modelled from the spec: the body of `SetCutForGamma`, declared in the header and defined
in `CollPhysicsList.cc`, a file not among the sources: it updates the cached gamma cut. -/
def CollPhysicsList.SetCutForGamma (l : CollPhysicsList) (cut : ℚ) : CollPhysicsList :=
  { l with _cutForGamma := cut }

/-- Modelled from the spec: the body of `SetCutForElectron`, declared in the header and
defined in `CollPhysicsList.cc`, a file not among the sources: it updates the cached electron
cut. -/
def CollPhysicsList.SetCutForElectron (l : CollPhysicsList) (cut : ℚ) : CollPhysicsList :=
  { l with _cutForElectron := cut }

/-- Modelled from the spec: the body of `SetCutForPositron`, declared in the header and
defined in `CollPhysicsList.cc`, a file not among the sources: it updates the cached positron
cut. -/
def CollPhysicsList.SetCutForPositron (l : CollPhysicsList) (cut : ℚ) : CollPhysicsList :=
  { l with _cutForPositron := cut }

set_option linter.dupNamespace false in
/-- Modelled from the spec: the body of the constructor `CollPhysicsList(double cuts)`, which
is in `CollPhysicsList.cc`, a file not among the sources.  The spec has one uniform value
applied to all three cuts unless individually overridden. -/
def CollPhysicsList.CollPhysicsList (cuts : ℚ) : CollPhysicsList :=
  ⟨cuts, cuts, cuts⟩


/-! ## Rounding lemmas -/

/-- Rounding an integer gives it back. -/
theorem roundHalfEven_intCast (n : ℤ) : roundHalfEven (n : ℚ) = n := by
  norm_num [roundHalfEven]

/-- Rounding to the nearest integer moves a rational by at most one half. -/
theorem abs_roundHalfEven_sub_le (q : ℚ) : |(roundHalfEven q : ℚ) - q| ≤ 1 / 2 := by
  have h0 : (⌊q⌋ : ℚ) ≤ q := Int.floor_le q
  have h1 : q < ⌊q⌋ + 1 := Int.lt_floor_add_one q
  unfold roundHalfEven
  split_ifs with ha hb hc
  · rw [abs_le]; constructor <;> linarith
  · push_cast; rw [abs_le]; constructor <;> linarith
  · rw [abs_le]; constructor <;> linarith
  · push_cast; rw [abs_le]; constructor <;> linarith

/-- A nonnegative rational rounds to a nonnegative integer. -/
theorem roundHalfEven_nonneg {q : ℚ} (h : 0 ≤ q) : 0 ≤ roundHalfEven q := by
  have hf : 0 ≤ ⌊q⌋ := Int.floor_nonneg.mpr h
  unfold roundHalfEven
  split_ifs <;> omega

/-- A nonpositive rational rounds to a nonpositive integer. -/
theorem roundHalfEven_nonpos {q : ℚ} (h : q ≤ 0) : roundHalfEven q ≤ 0 := by
  have h0 : (⌊q⌋ : ℚ) ≤ q := Int.floor_le q
  have hf : ⌊q⌋ ≤ 0 := by exact_mod_cast h0.trans h
  unfold roundHalfEven
  split_ifs with ha hb hc
  · exact hf
  · have : (⌊q⌋ : ℚ) < 0 := by linarith
    have : ⌊q⌋ < 0 := by exact_mod_cast this
    omega
  · exact hf
  · have : (⌊q⌋ : ℚ) < 0 := by linarith
    have : ⌊q⌋ < 0 := by exact_mod_cast this
    omega

/-- A tie above an even integer rounds down to it. -/
theorem roundHalfEven_tie_even (n : ℤ) (q : ℚ) (hq : q = n + 1 / 2) (hn : n % 2 = 0) :
    roundHalfEven q = n := by
  have hfl : ⌊q⌋ = n := by
    rw [Int.floor_eq_iff]
    constructor <;> linarith
  unfold roundHalfEven
  rw [hfl]
  have : q - (n : ℚ) = 1 / 2 := by linarith
  rw [this]
  simp [hn]

/-- The spacing is positive. -/
theorem ulp_pos (x : ℚ) : 0 < ulp x := by
  unfold ulp
  positivity

/-- The binade of a positive rational lying in `[2^e, 2^(e+1))`, for `e` not below `-1022`. -/
theorem binade_eq {x : ℚ} {e : ℤ} (he : -1022 ≤ e) (hlo : (2 : ℚ) ^ e ≤ x)
    (hhi : x < (2 : ℚ) ^ (e + 1)) : binade x = e := by
  have hpos : 0 < x := lt_of_lt_of_le (by positivity) hlo
  have h1 : e ≤ Int.log 2 x :=
    (Int.zpow_le_iff_le_log (by norm_num) hpos).mp (by exact_mod_cast hlo)
  have h2 : Int.log 2 x < e + 1 :=
    (Int.lt_zpow_iff_log_lt (by norm_num) hpos).mp (by exact_mod_cast hhi)
  unfold binade
  rw [abs_of_pos hpos]
  omega

/-- Evaluation of `fl` on a positive rational whose binade is known. -/
theorem fl_eq_of_binade {x : ℚ} (e n : ℤ) (he : -1022 ≤ e) (hlo : (2 : ℚ) ^ e ≤ x)
    (hhi : x < (2 : ℚ) ^ (e + 1)) (hn : roundHalfEven (x / (2 : ℚ) ^ (e - 52)) = n) :
    fl x = n * (2 : ℚ) ^ (e - 52) := by
  unfold fl ulp
  rw [binade_eq he hlo hhi, hn]

/-- Zero is a binary64 value. -/
theorem fl_zero : fl 0 = 0 := by
  simp [fl, roundHalfEven]

/-- Natural numbers below `2^53` are binary64 values. -/
theorem fl_natCast (n : ℕ) (h : n < 2 ^ 53) : fl (n : ℚ) = n := by
  rcases Nat.eq_zero_or_pos n with rfl | hn
  · simpa using fl_zero
  · have hlog : Int.log 2 ((n : ℚ)) = Nat.log 2 n := Int.log_natCast 2 n
    have hlt : Nat.log 2 n < 53 := Nat.log_lt_of_lt_pow (by omega) h
    have hb : binade (n : ℚ) = Nat.log 2 n := by
      unfold binade
      rw [abs_of_nonneg (Nat.cast_nonneg n), hlog]
      omega
    obtain ⟨k, hk⟩ : ∃ k : ℕ, ((Nat.log 2 n : ℕ) : ℤ) - 52 = -(k : ℤ) :=
      ⟨52 - Nat.log 2 n, by omega⟩
    have hu : ulp (n : ℚ) = ((2 : ℚ) ^ k)⁻¹ := by
      unfold ulp
      rw [hb, hk, zpow_neg, zpow_natCast]
    have hq : (n : ℚ) / ((2 : ℚ) ^ k)⁻¹ = ((n * 2 ^ k : ℤ) : ℚ) := by
      push_cast
      rw [div_inv_eq_mul]
    unfold fl
    rw [hu, hq, roundHalfEven_intCast]
    push_cast
    field_simp

/-- Numerals below `2^53` are binary64 values. -/
theorem fl_ofNat (n : ℕ) [n.AtLeastTwo] (h : n < 2 ^ 53) :
    fl (no_index (OfNat.ofNat n) : ℚ) = OfNat.ofNat n := by
  have := fl_natCast n h
  simpa using this

/-- One is a binary64 value. -/
theorem fl_one : fl 1 = 1 := by
  simpa using fl_natCast 1 (by norm_num)

/-- Rounding keeps a nonnegative result nonnegative. -/
theorem fl_nonneg {x : ℚ} (h : 0 ≤ x) : 0 ≤ fl x := by
  unfold fl
  have hu := ulp_pos x
  have : 0 ≤ roundHalfEven (x / ulp x) := roundHalfEven_nonneg (div_nonneg h hu.le)
  have : (0 : ℚ) ≤ roundHalfEven (x / ulp x) := by exact_mod_cast this
  positivity

/-- Rounding keeps a nonpositive result nonpositive. -/
theorem fl_nonpos {x : ℚ} (h : x ≤ 0) : fl x ≤ 0 := by
  unfold fl
  have hu := ulp_pos x
  have : roundHalfEven (x / ulp x) ≤ 0 :=
    roundHalfEven_nonpos (div_nonpos_of_nonpos_of_nonneg h hu.le)
  have : (roundHalfEven (x / ulp x) : ℚ) ≤ 0 := by exact_mod_cast this
  exact mul_nonpos_of_nonpos_of_nonneg this hu.le

/-- The rounding error is at most half the spacing. -/
theorem abs_fl_sub_le_half_ulp (x : ℚ) : |fl x - x| ≤ ulp x / 2 := by
  have hu := ulp_pos x
  have h := abs_roundHalfEven_sub_le (x / ulp x)
  have e : fl x - x = ((roundHalfEven (x / ulp x) : ℚ) - x / ulp x) * ulp x := by
    unfold fl
    field_simp
  rw [e, abs_mul, abs_of_pos hu]
  nlinarith

/-- The rounding error is at most `2^-53 |x| + 2^-1075`. -/
theorem abs_fl_sub_le (x : ℚ) : |fl x - x| ≤ unitRoundoff * |x| + halfMinSubnormal := by
  have h := abs_fl_sub_le_half_ulp x
  have hη : 0 < halfMinSubnormal := by unfold halfMinSubnormal; positivity
  have hax : 0 ≤ |x| := abs_nonneg x
  rcases eq_or_ne x 0 with rfl | hx
  · rw [fl_zero]
    simp only [sub_zero, abs_zero, mul_zero, zero_add]
    exact hη.le
  · have hpos : 0 < |x| := abs_pos.mpr hx
    by_cases hl : -1022 ≤ Int.log 2 |x|
    · have hb : binade x = Int.log 2 |x| := by unfold binade; omega
      have hle : (2 : ℚ) ^ Int.log 2 |x| ≤ |x| := by
        have := Int.zpow_log_le_self (b := 2) (by norm_num) hpos
        exact_mod_cast this
      have hu : ulp x = (2 : ℚ) ^ Int.log 2 |x| / 2 ^ 52 := by
        unfold ulp
        rw [hb, zpow_sub₀ (by norm_num)]
        norm_num
      have : ulp x / 2 ≤ unitRoundoff * |x| := by
        rw [hu]
        unfold unitRoundoff
        have : (2 : ℚ) ^ Int.log 2 |x| / 2 ^ 52 / 2 = (2 : ℚ) ^ Int.log 2 |x| * (1 / 2 ^ 53) := by
          ring
        rw [this, mul_comm]
        exact mul_le_mul_of_nonneg_left hle (by positivity)
      linarith
    · have hb : binade x = -1022 := by unfold binade; omega
      have hu : ulp x / 2 = halfMinSubnormal := by
        unfold ulp halfMinSubnormal
        rw [hb]
        have : (-1022 : ℤ) - 52 = -1075 + 1 := by norm_num
        rw [this, zpow_add₀ (by norm_num)]
        norm_num
      have : 0 ≤ unitRoundoff * |x| := by unfold unitRoundoff; positivity
      linarith

/-- A rational strictly closer to the integer `n` than one half rounds to `n`. -/
theorem roundHalfEven_eq_of_near (n : ℤ) (q : ℚ) (h1 : q - n < 1 / 2) (h2 : n - q < 1 / 2) :
    roundHalfEven q = n := by
  rcases le_or_lt (n : ℚ) q with h | h
  · have hfl : ⌊q⌋ = n := by
      rw [Int.floor_eq_iff]
      constructor <;> linarith
    unfold roundHalfEven
    rw [hfl, if_pos h1]
  · have hfl : ⌊q⌋ = n - 1 := by
      rw [Int.floor_eq_iff]
      push_cast
      constructor <;> linarith
    unfold roundHalfEven
    rw [hfl]
    push_cast
    rw [if_neg (by linarith), if_pos (by linarith)]
    ring

/-- Triangle inequality in the form used for rounded operands. -/
theorem abs_le_abs_add_abs_sub (x y : ℚ) : |x| ≤ |y| + |x - y| := by
  have h := abs_add y (x - y)
  have e : y + (x - y) = x := by ring
  rwa [e] at h

/-- An exact result and its rounding cannot be opposite unless both are zero. -/
theorem eq_zero_of_fl_eq_neg {d : ℚ} (h : fl d = -d) : d = 0 := by
  rcases le_total 0 d with hd | hd
  · have := fl_nonneg hd
    linarith
  · have := fl_nonpos hd
    linarith

/-! ## Theorems -/

/-- C1, the claim as stated fails: with `encHalfz` the `G4double` `50.1`, `srcShiftz = 45`,
`collHalfz = 100` and `airGap = 0`, the sum stored as secondary offset is rounded down, and
the secondary offset minus `collHalfz` is below the primary offset plus `encHalfz`. -/
theorem C1_rounded_offset_breaks_inequality :
    fl 50.1 = scenarioZeroGap._enc_halfz
      ∧ 0 ≤ scenarioZeroGap._air_gap
      ∧ ∃ pri sec, (DefineVolumes scenarioZeroGap).pCurrentLogical.daughters = [pri, sec]
          ∧ pri.tlate.z = -45
          ∧ sec.tlate.z = 3697877506536243 / 2 ^ 45
          ∧ sec.tlate.z - scenarioZeroGap._coll_halfz
              < pri.tlate.z + scenarioZeroGap._enc_halfz := by
  have e0 : fl 50.1 = 7050948166601933 / 2 ^ 47 := by
    rw [fl_eq_of_binade 5 7050948166601933 (by norm_num) (by norm_num) (by norm_num)
      (roundHalfEven_eq_of_near _ _ (by norm_num) (by norm_num))]
    norm_num
  have e1 : fl (717761190612173 / 140737488355328) = 717761190612173 / 140737488355328 := by
    rw [fl_eq_of_binade 2 5742089524897384 (by norm_num) (by norm_num) (by norm_num)
      (roundHalfEven_eq_of_near _ _ (by norm_num) (by norm_num))]
    norm_num
  have e2 : fl (14791510026144973 / 140737488355328) = 3697877506536243 / 35184372088832 := by
    rw [fl_eq_of_binade 6 7395755013072486 (by norm_num) (by norm_num) (by norm_num)
      (roundHalfEven_tie_even _ _ (by norm_num) (by norm_num))]
    norm_num
  have hsec : dadd (dadd (dsub scenarioZeroGap._enc_halfz scenarioZeroGap._src_shiftz)
      scenarioZeroGap._air_gap) scenarioZeroGap._coll_halfz = 3697877506536243 / 2 ^ 45 := by
    norm_num [dadd, dsub, scenarioZeroGap, scenario, cm, mm, e1, e2]
  refine ⟨?_, ?_, _, _, rfl, ?_, hsec, ?_⟩
  · rw [e0]
    rfl
  · norm_num [scenarioZeroGap]
  · norm_num [scenarioZeroGap, scenario, cm, mm]
  · rw [hsec]
    norm_num [scenarioZeroGap, scenario, cm, mm]

/-- C1 as amended: for every configuration with `airGap >= 0` (whose three operations do not
overflow) `DefineVolumes` places exactly the primary module at `-srcShiftz` and the secondary
module at the `G4double` sum `((encHalfz - srcShiftz) + airGap) + collHalfz`; the secondary
offset minus `collHalfz` is at least the primary offset plus `encHalfz` plus `airGap`, less the
rounding of the three operations, which is at most
`(|encHalfz - srcShiftz| + airGap + |collHalfz|) / 2^51 + 2^-1073`; hence the inequality of the
claim holds whenever `airGap` is at least that rounding bound. -/
theorem C1_modules_overlap_at_most_by_rounding (s : CollimatorConstruction)
    (hgap : 0 ≤ s._air_gap)
    (_h1 : noOverflow (s._enc_halfz - s._src_shiftz))
    (_h2 : noOverflow (dsub s._enc_halfz s._src_shiftz + s._air_gap))
    (_h3 : noOverflow (dadd (dsub s._enc_halfz s._src_shiftz) s._air_gap + s._coll_halfz)) :
    ∃ pri sec, (DefineVolumes s).pCurrentLogical.daughters = [pri, sec]
      ∧ pri.tlate.z = -s._src_shiftz
      ∧ sec.tlate.z = dadd (dadd (dsub s._enc_halfz s._src_shiftz) s._air_gap) s._coll_halfz
      ∧ sec.tlate.z - s._coll_halfz ≥ pri.tlate.z + s._enc_halfz + s._air_gap
          - ((|s._enc_halfz - s._src_shiftz| + s._air_gap + |s._coll_halfz|) / 2 ^ 51
              + 4 * halfMinSubnormal)
      ∧ ((|s._enc_halfz - s._src_shiftz| + s._air_gap + |s._coll_halfz|) / 2 ^ 51
              + 4 * halfMinSubnormal ≤ s._air_gap
          → sec.tlate.z - s._coll_halfz ≥ pri.tlate.z + s._enc_halfz) := by
  have hη : 0 < halfMinSubnormal := by
    unfold halfMinSubnormal
    positivity
  have E1 := abs_fl_sub_le (s._enc_halfz - s._src_shiftz)
  have E2 := abs_fl_sub_le (dsub s._enc_halfz s._src_shiftz + s._air_gap)
  have E3 := abs_fl_sub_le (dadd (dsub s._enc_halfz s._src_shiftz) s._air_gap + s._coll_halfz)
  have key : dadd (dadd (dsub s._enc_halfz s._src_shiftz) s._air_gap) s._coll_halfz
      - s._coll_halfz ≥ -s._src_shiftz + s._enc_halfz + s._air_gap
        - ((|s._enc_halfz - s._src_shiftz| + s._air_gap + |s._coll_halfz|) / 2 ^ 51
            + 4 * halfMinSubnormal) := by
    have F1 : fl (s._enc_halfz - s._src_shiftz) = dsub s._enc_halfz s._src_shiftz := rfl
    have F2 : fl (dsub s._enc_halfz s._src_shiftz + s._air_gap)
        = dadd (dsub s._enc_halfz s._src_shiftz) s._air_gap := rfl
    have F3 : fl (dadd (dsub s._enc_halfz s._src_shiftz) s._air_gap + s._coll_halfz)
        = dadd (dadd (dsub s._enc_halfz s._src_shiftz) s._air_gap) s._coll_halfz := rfl
    rw [F1] at E1
    rw [F2] at E2
    rw [F3] at E3
    generalize dadd (dadd (dsub s._enc_halfz s._src_shiftz) s._air_gap) s._coll_halfz = d3
      at E3 ⊢
    generalize dadd (dsub s._enc_halfz s._src_shiftz) s._air_gap = d2 at E2 E3
    generalize dsub s._enc_halfz s._src_shiftz = d1 at E1 E2
    have T1 := abs_le_abs_add_abs_sub d1 (s._enc_halfz - s._src_shiftz)
    have T2 := abs_le_abs_add_abs_sub d2 (d1 + s._air_gap)
    have T3 := abs_add d1 s._air_gap
    have T4 := abs_add d2 s._coll_halfz
    have G : |s._air_gap| = s._air_gap := abs_of_nonneg hgap
    rw [G] at T3
    have N1 := neg_abs_le (d1 - (s._enc_halfz - s._src_shiftz))
    have N2 := neg_abs_le (d2 - (d1 + s._air_gap))
    have N3 := neg_abs_le (d3 - (d2 + s._coll_halfz))
    have P0 := abs_nonneg (s._enc_halfz - s._src_shiftz)
    have P1 := abs_nonneg s._coll_halfz
    unfold unitRoundoff at E1 E2 E3
    norm_num at E1 E2 E3 ⊢
    linarith
  refine ⟨_, _, rfl, rfl, rfl, key, fun h => ?_⟩
  have key2 : dadd (dadd (dsub s._enc_halfz s._src_shiftz) s._air_gap) s._coll_halfz
      - s._coll_halfz ≥ -s._src_shiftz + s._enc_halfz := by
    linarith
  exact key2

/-- Witness of C1 as amended at the end-to-end scenario: no operation overflows, the air gap
of one centimetre exceeds the rounding bound, and the modules do not overlap along z. -/
theorem C1_modules_overlap_at_most_by_rounding_witness :
    0 ≤ scenario._air_gap
      ∧ noOverflow (scenario._enc_halfz - scenario._src_shiftz)
      ∧ noOverflow (dsub scenario._enc_halfz scenario._src_shiftz + scenario._air_gap)
      ∧ noOverflow (dadd (dsub scenario._enc_halfz scenario._src_shiftz) scenario._air_gap
          + scenario._coll_halfz)
      ∧ ∃ pri sec, (DefineVolumes scenario).pCurrentLogical.daughters = [pri, sec]
          ∧ pri.tlate.z = -scenario._src_shiftz
          ∧ sec.tlate.z = dadd (dadd (dsub scenario._enc_halfz scenario._src_shiftz)
              scenario._air_gap) scenario._coll_halfz
          ∧ sec.tlate.z - scenario._coll_halfz ≥ pri.tlate.z + scenario._enc_halfz
              + scenario._air_gap
              - ((|scenario._enc_halfz - scenario._src_shiftz| + scenario._air_gap
                    + |scenario._coll_halfz|) / 2 ^ 51 + 4 * halfMinSubnormal)
          ∧ ((|scenario._enc_halfz - scenario._src_shiftz| + scenario._air_gap
                    + |scenario._coll_halfz|) / 2 ^ 51 + 4 * halfMinSubnormal
                ≤ scenario._air_gap
              → sec.tlate.z - scenario._coll_halfz ≥ pri.tlate.z + scenario._enc_halfz) :=
  have h0 : 0 ≤ scenario._air_gap := by norm_num [scenario, cm, mm]
  have h1 : noOverflow (scenario._enc_halfz - scenario._src_shiftz) := by
    norm_num [noOverflow, abs_lt, scenario, cm, mm]
  have h2 : noOverflow (dsub scenario._enc_halfz scenario._src_shiftz + scenario._air_gap) := by
    norm_num [noOverflow, abs_lt, dsub, fl_ofNat, scenario, cm, mm]
  have h3 : noOverflow (dadd (dsub scenario._enc_halfz scenario._src_shiftz) scenario._air_gap
      + scenario._coll_halfz) := by
    norm_num [noOverflow, abs_lt, dadd, dsub, fl_ofNat, scenario, cm, mm]
  ⟨h0, h1, h2, h3, C1_modules_overlap_at_most_by_rounding scenario h0 h1 h2 h3⟩

/-- C2: for every configuration the source is placed at local `(0, 0, +srcShiftz)` in the
enclosure, the enclosure at `(0, 0, -srcShiftz)` in the world, neither is rotated, and the
composed translation of the source's centre is the origin. -/
theorem C2_source_centre_at_origin (s : CollimatorConstruction) :
    ∃ m p, (DefineVolumes s).pCurrentLogical.daughters.head? = some m
      ∧ m.pCurrentLogical = BuildPrimaryCollimator s
      ∧ m.pCurrentLogical.daughter? "source" = some p
      ∧ (DefineVolumes s).pRot = none ∧ m.pRot = none ∧ p.pRot = none
      ∧ m.tlate = ⟨0, 0, -s._src_shiftz⟩
      ∧ p.tlate = ⟨0, 0, s._src_shiftz⟩
      ∧ ((DefineVolumes s).tlate.add m.tlate).add p.tlate = ⟨0, 0, 0⟩ := by
  refine ⟨_, ⟨none, ⟨0, 0, s._src_shiftz⟩,
    ⟨Solid.G4Tubs "source" 0 s._src_radius s._src_halfz 0 360, s._Nickel, "source", []⟩,
    "source", false, 0, s._checkOverlaps⟩, rfl, rfl, ?_, rfl, rfl, rfl, rfl, rfl, ?_⟩
  · simp [G4LogicalVolume.daughter?, BuildPrimaryCollimator]
  · simp [G4ThreeVector.add, DefineVolumes]

/-- C3, the claim as stated fails: with `encHalfz` the `G4double` `0.9` and `opnHalfz` the
`G4double` `0.2` the stored centre of the opening is the rounded difference, and the
opening's `+z` face lies below the enclosure's `+z` face. -/
theorem C3_rounded_centre_misses_enclosure_face :
    fl 0.9 = scenarioShortEnclosure._enc_halfz
      ∧ fl 0.2 = scenarioShortEnclosure._opn_halfz
      ∧ ∃ p, (BuildPrimaryCollimator scenarioShortEnclosure).daughter? "opening" = some p
          ∧ p.tlate.z = 3152519739159347 / 2 ^ 52
          ∧ p.zMax = 16212958658533785 / 2 ^ 54
          ∧ (BuildPrimaryCollimator scenarioShortEnclosure).solid.halfz
              = 8106479329266893 / 2 ^ 53
          ∧ p.zMax ≠ (BuildPrimaryCollimator scenarioShortEnclosure).solid.halfz := by
  have e0 : fl 0.9 = 8106479329266893 / 2 ^ 53 := by
    rw [fl_eq_of_binade (-1) 8106479329266893 (by norm_num) (by norm_num) (by norm_num)
      (roundHalfEven_eq_of_near _ _ (by norm_num) (by norm_num))]
    norm_num
  have e1 : fl 0.2 = 3602879701896397 / 2 ^ 54 := by
    rw [fl_eq_of_binade (-3) 7205759403792794 (by norm_num) (by norm_num) (by norm_num)
      (roundHalfEven_eq_of_near _ _ (by norm_num) (by norm_num))]
    norm_num
  have e2 : fl (12610078956637389 / 18014398509481984) = 3152519739159347 / 2 ^ 52 := by
    rw [fl_eq_of_binade (-1) 6305039478318694 (by norm_num) (by norm_num) (by norm_num)
      (roundHalfEven_tie_even _ _ (by norm_num) (by norm_num))]
    norm_num
  have hc : dsub scenarioShortEnclosure._enc_halfz scenarioShortEnclosure._opn_halfz
      = 3152519739159347 / 2 ^ 52 := by
    have : scenarioShortEnclosure._enc_halfz - scenarioShortEnclosure._opn_halfz
        = 12610078956637389 / 18014398509481984 := by
      norm_num [scenarioShortEnclosure]
    rw [dsub, this, e2]
  refine ⟨e0.trans rfl, e1.trans rfl,
    ⟨none, ⟨0, 0, dsub scenarioShortEnclosure._enc_halfz scenarioShortEnclosure._opn_halfz⟩,
      ⟨Solid.G4Tubs "opening" 0 scenarioShortEnclosure._opn_radius
        scenarioShortEnclosure._opn_halfz 0 360, scenarioShortEnclosure._Air, "opening", []⟩,
      "opening", false, 0, scenarioShortEnclosure._checkOverlaps⟩, ?_, hc, ?_, rfl, ?_⟩
  · simp [G4LogicalVolume.daughter?, BuildPrimaryCollimator]
  · simp only [G4PVPlacement.zMax, Solid.halfz, hc]
    norm_num [scenarioShortEnclosure]
  · simp only [G4PVPlacement.zMax, Solid.halfz, hc, BuildPrimaryCollimator]
    norm_num [scenarioShortEnclosure]

/-- C3 as amended: for every configuration (whose subtraction does not overflow) the opening
is placed at the `G4double` difference `encHalfz - opnHalfz` with half-length `opnHalfz`; its
`+z` face is within the rounding of that subtraction, at most
`2^-53 * |encHalfz - opnHalfz| + 2^-1075`, of `encHalfz`, the `+z` face of the enclosure, and
is exactly at `encHalfz` whenever the difference is itself a `G4double`. -/
theorem C3_opening_flush_up_to_rounding (s : CollimatorConstruction)
    (_h : noOverflow (s._enc_halfz - s._opn_halfz)) :
    ∃ p, (BuildPrimaryCollimator s).daughter? "opening" = some p
      ∧ p.tlate.z = dsub s._enc_halfz s._opn_halfz
      ∧ p.pCurrentLogical.solid.halfz = s._opn_halfz
      ∧ (BuildPrimaryCollimator s).solid.halfz = s._enc_halfz
      ∧ |p.zMax - (BuildPrimaryCollimator s).solid.halfz|
          ≤ unitRoundoff * |s._enc_halfz - s._opn_halfz| + halfMinSubnormal
      ∧ (fl (s._enc_halfz - s._opn_halfz) = s._enc_halfz - s._opn_halfz
          → p.zMax = (BuildPrimaryCollimator s).solid.halfz) := by
  refine ⟨⟨none, ⟨0, 0, dsub s._enc_halfz s._opn_halfz⟩,
    ⟨Solid.G4Tubs "opening" 0 s._opn_radius s._opn_halfz 0 360, s._Air, "opening", []⟩,
    "opening", false, 0, s._checkOverlaps⟩, ?_, rfl, rfl, rfl, ?_, ?_⟩
  · simp [G4LogicalVolume.daughter?, BuildPrimaryCollimator]
  · have E := abs_fl_sub_le (s._enc_halfz - s._opn_halfz)
    have e : dsub s._enc_halfz s._opn_halfz + s._opn_halfz - s._enc_halfz
        = fl (s._enc_halfz - s._opn_halfz) - (s._enc_halfz - s._opn_halfz) := by
      unfold dsub
      ring
    simp only [G4PVPlacement.zMax, Solid.halfz, BuildPrimaryCollimator]
    rw [e]
    exact E
  · intro hx
    simp only [G4PVPlacement.zMax, Solid.halfz, BuildPrimaryCollimator, dsub]
    rw [hx]
    ring

/-- Witness of C3 as amended at the end-to-end scenario, where `50 - 45` is exact. -/
theorem C3_opening_flush_up_to_rounding_witness :
    noOverflow (scenario._enc_halfz - scenario._opn_halfz)
      ∧ ∃ p, (BuildPrimaryCollimator scenario).daughter? "opening" = some p
          ∧ p.tlate.z = dsub scenario._enc_halfz scenario._opn_halfz
          ∧ p.pCurrentLogical.solid.halfz = scenario._opn_halfz
          ∧ (BuildPrimaryCollimator scenario).solid.halfz = scenario._enc_halfz
          ∧ |p.zMax - (BuildPrimaryCollimator scenario).solid.halfz|
              ≤ unitRoundoff * |scenario._enc_halfz - scenario._opn_halfz| + halfMinSubnormal
          ∧ (fl (scenario._enc_halfz - scenario._opn_halfz)
                = scenario._enc_halfz - scenario._opn_halfz
              → p.zMax = (BuildPrimaryCollimator scenario).solid.halfz) :=
  have h : noOverflow (scenario._enc_halfz - scenario._opn_halfz) := by
    norm_num [noOverflow, abs_lt, scenario, cm, mm]
  ⟨h, C3_opening_flush_up_to_rounding scenario h⟩

/-- C4, the claim as stated fails: in the end-to-end scenario the world does not have its two
module placements at `-4.5cm` and `16cm`. -/
theorem C4_secondary_offset_is_not_16cm :
    ¬ ((Construct scenario).2.pCurrentLogical.daughters.length = 2
        ∧ moduleOffsets (Construct scenario).2 = [-(4.5 * cm), 16 * cm]) := by
  norm_num [moduleOffsets, Construct, DefineMaterials, DefineVolumes, dadd, dsub, fl_ofNat,
    scenario, cm, mm]

/-- C4 as amended: in the end-to-end scenario the world holds exactly two module placements,
the primary module (root volume `enclosure`) at z offset `-4.5cm` and the secondary module
(root volume `aircyl`) at z offset `(5cm - 4.5cm) + 1cm + 10cm = 11.5cm`. -/
theorem C4_scenario_module_offsets :
    (Construct scenario).2.pCurrentLogical.daughters.length = 2
      ∧ moduleNames (Construct scenario).2 = ["PCL", "SCL"]
      ∧ (Construct scenario).2.pCurrentLogical.daughters.map (fun m => m.pCurrentLogical.name)
          = ["enclosure", "aircyl"]
      ∧ moduleOffsets (Construct scenario).2 = [-(4.5 * cm), 11.5 * cm] := by
  refine ⟨rfl, rfl, rfl, ?_⟩
  norm_num [moduleOffsets, Construct, DefineMaterials, DefineVolumes, dadd, dsub, fl_ofNat,
    scenario, cm, mm]

/-- C5, the claim as stated fails: in the end-to-end scenario it is not the case that the
daughters of the enclosure, of the air cylinder and of the world are all pairwise free of
overlap; the source and the opening inside the enclosure share a region of positive volume. -/
theorem C5_source_overlaps_opening :
    ¬ (noSiblingOverlap (BuildPrimaryCollimator (Construct scenario).1)
        ∧ noSiblingOverlap (BuildSecondaryCollimator (Construct scenario).1)
        ∧ noSiblingOverlap (Construct scenario).2.pCurrentLogical) := by
  intro h
  have h1 := h.1
  norm_num [noSiblingOverlap, BuildPrimaryCollimator, overlap, G4PVPlacement.zMin,
    G4PVPlacement.zMax, Solid.halfz, Solid.rLo, Solid.rHi, Construct, DefineMaterials, dsub,
    dmul, fl_ofNat, scenario, cm, mm, lt_min_iff, max_lt_iff] at h1

/-- C5 as amended: in the end-to-end scenario the iron tube and the cone inside the air
cylinder do not overlap, the two modules inside the world do not overlap, and inside the
enclosure the PCL overlaps neither the source nor the opening, while the source (radii
`0..0.1cm`, z from `4.4cm` to `4.6cm`) and the opening (radii `0..0.3cm`, z from `-4cm` to
`5cm`) do overlap. -/
theorem C5_scenario_overlaps :
    noSiblingOverlap (BuildSecondaryCollimator (Construct scenario).1)
      ∧ noSiblingOverlap (Construct scenario).2.pCurrentLogical
      ∧ ∃ src opn pcl,
          (BuildPrimaryCollimator (Construct scenario).1).daughters = [src, opn, pcl]
          ∧ src.pName = "source" ∧ opn.pName = "opening" ∧ pcl.pName = "PCL"
          ∧ ¬ overlap src pcl ∧ ¬ overlap opn pcl ∧ overlap src opn
          ∧ src.zMin = 4.4 * cm ∧ src.zMax = 4.6 * cm
          ∧ opn.zMin = -(4 * cm) ∧ opn.zMax = 5 * cm := by
  refine ⟨?_, ?_, _, _, _, rfl, rfl, rfl, rfl, ?_, ?_, ?_, ?_, ?_, ?_, ?_⟩ <;>
  norm_num [noSiblingOverlap, BuildPrimaryCollimator, BuildSecondaryCollimator, DefineVolumes,
    overlap, G4PVPlacement.zMin, G4PVPlacement.zMax, Solid.halfz, Solid.rLo, Solid.rHi,
    Construct, DefineMaterials, dadd, dsub, dmul, fl_ofNat, scenario, cm, mm, lt_min_iff,
    max_lt_iff]

/-- C6, the claim as stated fails: with the air gap still at the constructor's `-1.0` (and
the other dimensions as in the scenario) `Construct` does not fail; it returns a world with
both modules placed, the secondary one at `(50 - 45) + (-1) + 100 = 104` millimetres. -/
theorem C6_construct_builds_with_unset_air_gap :
    scenarioGapUnset._air_gap = -1
      ∧ moduleNames (Construct scenarioGapUnset).2 = ["PCL", "SCL"]
      ∧ moduleOffsets (Construct scenarioGapUnset).2 = [-45, 104]
      ∧ (Construct scenarioGapUnset).2.pCurrentLogical.daughters.map
          (fun m => m.pCurrentLogical.daughters.map (fun p => p.pName))
          = [["source", "opening", "PCL"], ["irontube", "scl"]] := by
  refine ⟨rfl, rfl, ?_, rfl⟩
  norm_num [moduleOffsets, Construct, DefineMaterials, DefineVolumes, dadd, dsub, fl_ofNat,
    scenarioGapUnset, scenario, cm, mm, CollimatorConstruction.CollimatorConstruction]

/-- C6 as amended: `Construct` makes no check of the dimensions against the `-1.0` sentinel
and has no failing outcome of its own: for every state of the object it resolves the four
materials and returns the world of `DefineVolumes` with the primary module placed at
`-srcShiftz` and the secondary module at `(encHalfz - srcShiftz) + airGap + collHalfz`,
summed in `G4double` from whatever values the fields hold. -/
theorem C6_construct_has_no_sentinel_check (s : CollimatorConstruction) :
    (Construct s).1 = DefineMaterials s
      ∧ (Construct s).2 = DefineVolumes (DefineMaterials s)
      ∧ moduleNames (Construct s).2 = ["PCL", "SCL"]
      ∧ moduleOffsets (Construct s).2
          = [-s._src_shiftz,
             dadd (dadd (dsub s._enc_halfz s._src_shiftz) s._air_gap) s._coll_halfz]
      ∧ (Construct s).2.pCurrentLogical.daughters.map (fun m => m.pCurrentLogical)
          = [BuildPrimaryCollimator (DefineMaterials s),
             BuildSecondaryCollimator (DefineMaterials s)] :=
  ⟨rfl, rfl, rfl, rfl, rfl⟩

/-- C7, the claim as stated fails: with the bore radius `sclHoleA = 5cm` not below the outer
radius `sclRadius = 4cm` (and `collRadius = 5cm`), `BuildSecondaryCollimator` rejects nothing;
it returns the air cylinder with the iron tube and a cone of inner radius `50` and outer
radius `40` millimetres at its first end. -/
theorem C7_secondary_built_with_bore_wider_than_absorber :
    ¬ (scenarioWideBore._scl_holeA < scenarioWideBore._scl_radius)
      ∧ scenarioWideBore._scl_radius < scenarioWideBore._coll_radius
      ∧ (BuildSecondaryCollimator scenarioWideBore).daughters.map
          (fun p => p.pCurrentLogical.solid)
          = [Solid.G4Tubs "irontube" 40 50 100 0 360,
             Solid.G4Cons "scl" 50 40 5 40 30 0 360] := by
  refine ⟨?_, ?_, ?_⟩ <;>
  norm_num [BuildSecondaryCollimator, scenarioWideBore, scenario, cm, mm]

/-- C7 as amended: `BuildSecondaryCollimator` compares no radii and rejects nothing: for every
configuration it returns the air cylinder (radius `collRadius`) holding exactly the iron tube,
with inner radius `sclRadius` and outer radius `collRadius`, and the cone, with bore radii
`sclHoleA` and `sclHoleB` and outer radius `sclRadius` at both ends, the radii passed on
unchanged. -/
theorem C7_secondary_passes_radii_unchecked (s : CollimatorConstruction) :
    (BuildSecondaryCollimator s).solid
        = Solid.G4Tubs "aircyl" 0 s._coll_radius s._coll_halfz 0 360
      ∧ (BuildSecondaryCollimator s).daughters.map (fun p => p.pName) = ["irontube", "scl"]
      ∧ (BuildSecondaryCollimator s).daughters.map (fun p => p.pCurrentLogical.solid)
          = [Solid.G4Tubs "irontube" s._scl_radius s._coll_radius s._coll_halfz 0 360,
             Solid.G4Cons "scl" s._scl_holeA s._scl_radius s._scl_holeB s._scl_radius
               s._scl_halfz 0 360] :=
  ⟨rfl, rfl, rfl⟩

/-- C8, the claim as stated fails: in the end-to-end scenario (`0 <= sclHalfz = 3cm <=
collHalfz = 10cm`) the cone's `+z` face is at `-4cm`, not at the air cylinder's `+z` face
`+10cm`. -/
theorem C8_absorber_not_at_downstream_end :
    0 ≤ scenario._scl_halfz ∧ scenario._scl_halfz ≤ scenario._coll_halfz
      ∧ ∃ p, (BuildSecondaryCollimator scenario).daughter? "scl" = some p
          ∧ p.zMax = -(4 * cm)
          ∧ (BuildSecondaryCollimator scenario).solid.halfz = 10 * cm
          ∧ p.zMax ≠ (BuildSecondaryCollimator scenario).solid.halfz := by
  refine ⟨?_, ?_, ⟨none, ⟨0, 0, -(dsub scenario._coll_halfz scenario._scl_halfz)⟩,
    ⟨Solid.G4Cons "scl" scenario._scl_holeA scenario._scl_radius scenario._scl_holeB
      scenario._scl_radius scenario._scl_halfz 0 360, scenario._Tungsten, "scl", []⟩,
    "scl", false, 0, scenario._checkOverlaps⟩, ?_, ?_, ?_, ?_⟩
  · norm_num [scenario, cm, mm]
  · norm_num [scenario, cm, mm]
  · simp [G4LogicalVolume.daughter?, BuildSecondaryCollimator]
  · norm_num [G4PVPlacement.zMax, Solid.halfz, dsub, fl_ofNat, scenario, cm, mm]
  · norm_num [BuildSecondaryCollimator, Solid.halfz, scenario, cm, mm]
  · norm_num [G4PVPlacement.zMax, BuildSecondaryCollimator, Solid.halfz, dsub, fl_ofNat,
      scenario, cm, mm]

/-- C8 as amended: for every configuration (whose subtraction does not overflow) the cone is
placed at local `z = -(collHalfz - sclHalfz)`, the difference taken in `G4double`, with
half-length `sclHalfz`.  Its `-z` (upstream) face is within the rounding of that subtraction,
at most `2^-53 * |collHalfz - sclHalfz| + 2^-1075`, of `-collHalfz`, the `-z` face of the air
cylinder, and its `+z` face is within the same bound of `2*sclHalfz - collHalfz`; both are
exact whenever the difference is itself a `G4double`.  The `+z` face is the air cylinder's
`+z` face only when `sclHalfz = collHalfz`. -/
theorem C8_absorber_flush_with_upstream_end (s : CollimatorConstruction)
    (_h : noOverflow (s._coll_halfz - s._scl_halfz)) :
    ∃ p, (BuildSecondaryCollimator s).daughter? "scl" = some p
      ∧ p.tlate.z = -(dsub s._coll_halfz s._scl_halfz)
      ∧ p.pCurrentLogical.solid.halfz = s._scl_halfz
      ∧ (BuildSecondaryCollimator s).solid.halfz = s._coll_halfz
      ∧ |p.zMin - -(BuildSecondaryCollimator s).solid.halfz|
          ≤ unitRoundoff * |s._coll_halfz - s._scl_halfz| + halfMinSubnormal
      ∧ |p.zMax - (2 * s._scl_halfz - s._coll_halfz)|
          ≤ unitRoundoff * |s._coll_halfz - s._scl_halfz| + halfMinSubnormal
      ∧ (fl (s._coll_halfz - s._scl_halfz) = s._coll_halfz - s._scl_halfz
          → p.zMin = -(BuildSecondaryCollimator s).solid.halfz
            ∧ p.zMax = 2 * s._scl_halfz - s._coll_halfz)
      ∧ (p.zMax = (BuildSecondaryCollimator s).solid.halfz ↔ s._scl_halfz = s._coll_halfz) := by
  have E := abs_fl_sub_le (s._coll_halfz - s._scl_halfz)
  rw [abs_sub_comm] at E
  refine ⟨⟨none, ⟨0, 0, -(dsub s._coll_halfz s._scl_halfz)⟩,
    ⟨Solid.G4Cons "scl" s._scl_holeA s._scl_radius s._scl_holeB s._scl_radius s._scl_halfz
      0 360, s._Tungsten, "scl", []⟩, "scl", false, 0, s._checkOverlaps⟩,
    ?_, rfl, rfl, rfl, ?_, ?_, ?_, ?_⟩
  · simp [G4LogicalVolume.daughter?, BuildSecondaryCollimator]
  · have e : -(dsub s._coll_halfz s._scl_halfz) - s._scl_halfz - -s._coll_halfz
        = s._coll_halfz - s._scl_halfz - fl (s._coll_halfz - s._scl_halfz) := by
      unfold dsub
      ring
    simp only [G4PVPlacement.zMin, Solid.halfz, BuildSecondaryCollimator]
    rw [e]
    exact E
  · have e : -(dsub s._coll_halfz s._scl_halfz) + s._scl_halfz
          - (2 * s._scl_halfz - s._coll_halfz)
        = s._coll_halfz - s._scl_halfz - fl (s._coll_halfz - s._scl_halfz) := by
      unfold dsub
      ring
    simp only [G4PVPlacement.zMax, Solid.halfz]
    rw [e]
    exact E
  · intro hx
    simp only [G4PVPlacement.zMin, G4PVPlacement.zMax, Solid.halfz, BuildSecondaryCollimator,
      dsub]
    rw [hx]
    constructor <;> ring
  · simp only [G4PVPlacement.zMax, Solid.halfz, BuildSecondaryCollimator, dsub]
    constructor
    · intro h
      have hd : fl (s._coll_halfz - s._scl_halfz) = -(s._coll_halfz - s._scl_halfz) := by
        linarith
      have := eq_zero_of_fl_eq_neg hd
      linarith
    · intro h
      rw [h, sub_self, fl_zero]
      ring

/-- Witness of C8 as amended at the end-to-end scenario, where `100 - 30` is exact. -/
theorem C8_absorber_flush_with_upstream_end_witness :
    noOverflow (scenario._coll_halfz - scenario._scl_halfz)
      ∧ ∃ p, (BuildSecondaryCollimator scenario).daughter? "scl" = some p
          ∧ p.tlate.z = -(dsub scenario._coll_halfz scenario._scl_halfz)
          ∧ p.pCurrentLogical.solid.halfz = scenario._scl_halfz
          ∧ (BuildSecondaryCollimator scenario).solid.halfz = scenario._coll_halfz
          ∧ |p.zMin - -(BuildSecondaryCollimator scenario).solid.halfz|
              ≤ unitRoundoff * |scenario._coll_halfz - scenario._scl_halfz| + halfMinSubnormal
          ∧ |p.zMax - (2 * scenario._scl_halfz - scenario._coll_halfz)|
              ≤ unitRoundoff * |scenario._coll_halfz - scenario._scl_halfz| + halfMinSubnormal
          ∧ (fl (scenario._coll_halfz - scenario._scl_halfz)
                = scenario._coll_halfz - scenario._scl_halfz
              → p.zMin = -(BuildSecondaryCollimator scenario).solid.halfz
                ∧ p.zMax = 2 * scenario._scl_halfz - scenario._coll_halfz)
          ∧ (p.zMax = (BuildSecondaryCollimator scenario).solid.halfz
              ↔ scenario._scl_halfz = scenario._coll_halfz) :=
  have h : noOverflow (scenario._coll_halfz - scenario._scl_halfz) := by
    norm_num [noOverflow, abs_lt, scenario, cm, mm]
  ⟨h, C8_absorber_flush_with_upstream_end scenario h⟩

/-- C9: a `CollPhysicsList` constructed with the default argument and no setter called caches
`0.2` for gamma, electron and positron; and each of the three setters leaves the two other
cached cuts unchanged, for every value and every state. -/
theorem C9_default_cuts_and_setter_frame :
    CollPhysicsList.CollPhysicsList defaultCuts = ⟨0.2, 0.2, 0.2⟩
      ∧ (∀ (l : CollPhysicsList) (v : ℚ),
          (l.SetCutForGamma v)._cutForGamma = v
          ∧ (l.SetCutForGamma v)._cutForElectron = l._cutForElectron
          ∧ (l.SetCutForGamma v)._cutForPositron = l._cutForPositron)
      ∧ (∀ (l : CollPhysicsList) (v : ℚ),
          (l.SetCutForElectron v)._cutForElectron = v
          ∧ (l.SetCutForElectron v)._cutForGamma = l._cutForGamma
          ∧ (l.SetCutForElectron v)._cutForPositron = l._cutForPositron)
      ∧ (∀ (l : CollPhysicsList) (v : ℚ),
          (l.SetCutForPositron v)._cutForPositron = v
          ∧ (l.SetCutForPositron v)._cutForGamma = l._cutForGamma
          ∧ (l.SetCutForPositron v)._cutForElectron = l._cutForElectron) := by
  refine ⟨?_, fun l v => ⟨rfl, rfl, rfl⟩, fun l v => ⟨rfl, rfl, rfl⟩,
    fun l v => ⟨rfl, rfl, rfl⟩⟩
  norm_num [CollPhysicsList.CollPhysicsList, defaultCuts, mm]

/-- C10, evaluated at the end-to-end scenario (`encHalfz = 5cm`, `opnHalfz = 4.5cm`,
`pclHalfz = 0.5cm`): the PCL's `-z` face is at `2cm` while the opening's `-z` face is at
`-4cm`, so the PCL does not start where the opening starts. -/
theorem C10_pcl_start_differs_from_opening_start :
    ∃ opn pcl, (BuildPrimaryCollimator scenario).daughter? "opening" = some opn
      ∧ (BuildPrimaryCollimator scenario).daughter? "PCL" = some pcl
      ∧ opn.zMin = -(4 * cm) ∧ pcl.zMin = 2 * cm ∧ pcl.zMin ≠ opn.zMin := by
  refine ⟨⟨none, ⟨0, 0, dsub scenario._enc_halfz scenario._opn_halfz⟩,
      ⟨Solid.G4Tubs "opening" 0 scenario._opn_radius scenario._opn_halfz 0 360, scenario._Air,
        "opening", []⟩, "opening", false, 0, scenario._checkOverlaps⟩,
    ⟨none, ⟨0, 0, dsub (dsub scenario._enc_halfz scenario._pcl_halfz)
        (dmul (1 / 2) (dsub scenario._opn_halfz scenario._pcl_halfz))⟩,
      ⟨Solid.G4Tubs "PCL" scenario._opn_radius scenario._pcl_radius scenario._pcl_halfz 0 360,
        scenario._Tungsten, "PCL", []⟩, "PCL", false, 0, scenario._checkOverlaps⟩,
    ?_, ?_, ?_, ?_, ?_⟩
  · simp [G4LogicalVolume.daughter?, BuildPrimaryCollimator]
  · simp [G4LogicalVolume.daughter?, BuildPrimaryCollimator]
  · norm_num [G4PVPlacement.zMin, Solid.halfz, dsub, dmul, fl_ofNat, scenario, cm, mm]
  · norm_num [G4PVPlacement.zMin, Solid.halfz, dsub, dmul, fl_ofNat, scenario, cm, mm]
  · norm_num [G4PVPlacement.zMin, Solid.halfz, dsub, dmul, fl_ofNat, scenario, cm, mm]


end CollimationStudies
